import Mathlib

set_option linter.unusedVariables false

/-!
Verification development for the ZSEL mail provisioner
(src/provisioner/src/main.py), a polling reconciliation engine that
watches a FreeIPA directory and drives mailbox lifecycle actions.

Shallow embedding conventions:
* Python dataclasses become structures; the dataclass defaults become
  explicit `default…` definitions.
* The LDAP directory is a snapshot `List Identity`; the two search
  filters of the source (`(&(objectClass=person)(!(mail=*)))` under a
  watched OU, and `(&(objectClass=person)(nsAccountLock=TRUE)(mail=*))`)
  become Boolean filters over that list.
* Effectful processing functions return the list of dispatched backend
  actions together with the resulting directory snapshot.
* A Python exception escaping a directory query is an `Except.error`;
  the `try`/`except` block of `watch_users` becomes an explicit match
  on those values, reproducing its short-circuit-then-catch shape.
* Python string `in` (substring test) is `containsSub` below.
-/

/-- Source `UserRole` enum. -/
inductive UserRole where
  | UCZEN
  | NAUCZYCIEL
  | ADMINISTRACJA
  | DYREKCJA
deriving DecidableEq, Repr, Fintype

/-- Source `MailConfig` dataclass (quotas in bytes). -/
structure MailConfig where
  domain : String
  maildir_base : String
  quota_uczen : Nat
  quota_nauczyciel : Nat
  quota_admin : Nat
  quota_dyrekcja : Nat
deriving DecidableEq, Repr

/-- The dataclass defaults of `MailConfig`. -/
def defaultMailConfig : MailConfig where
  domain := "zsel.opole.pl"
  maildir_base := "/var/mail/vhosts"
  quota_uczen := 1 * 1024 * 1024 * 1024
  quota_nauczyciel := 5 * 1024 * 1024 * 1024
  quota_admin := 10 * 1024 * 1024 * 1024
  quota_dyrekcja := 20 * 1024 * 1024 * 1024

/-- Source `FreeIPAConfig` dataclass (connection fields dropped: the wire
protocol is an external collaborator; `watch_ous` is the tuple of watched
organizational units). -/
structure FreeIPAConfig where
  base_dn : String
  watch_ous : List String
deriving DecidableEq, Repr

/-- The dataclass defaults of `FreeIPAConfig`. -/
def defaultFreeIPAConfig : FreeIPAConfig where
  base_dn := "dc=zsel,dc=opole,dc=pl"
  watch_ous := ["ou=uczniowie", "ou=nauczyciele", "ou=administracja"]

/-- One directory entry as the provisioner observes it: the `uid`
attribute, the organizational unit it lives under, the `nsAccountLock`
flag and the optional `mail` attribute. -/
structure Identity where
  uid : String
  ou : String
  nsAccountLock : Bool
  mail : Option String
deriving DecidableEq, Repr

/-- A backend action dispatched during a cycle. `Provision` carries the
email address and the quota handed to the (stubbed) Dovecot backend. -/
inductive MailAction where
  | Provision (uid email : String) (quota : Nat)
  | Archive (uid : String)
  | Delete (uid : String)
  | NoOp (uid : String)
deriving DecidableEq, Repr

/-- Substring scan on character lists: does `needle` occur contiguously
in `hay`? -/
def subOccurs (needle : List Char) : List Char → Bool
  | [] => needle.isEmpty
  | c :: t => needle.isPrefixOf (c :: t) || subOccurs needle t

/-- Python substring test `needle in hay`. -/
def containsSub (needle hay : String) : Bool :=
  subOccurs needle.toList hay.toList

/-- Source `MailboxManager._get_quota`: the Python builds a dict keyed by
every `UserRole` member and reads it with `.get(role, quota_uczen)`; the
dict covers all four constructors, so the lookup is this total match. -/
def get_quota (cfg : MailConfig) (role : UserRole) : Nat :=
  match role with
  | .UCZEN => cfg.quota_uczen
  | .NAUCZYCIEL => cfg.quota_nauczyciel
  | .ADMINISTRACJA => cfg.quota_admin
  | .DYREKCJA => cfg.quota_dyrekcja

/-- The f-string `f"{uid}@{self.config.domain}"` used by all three
`MailboxManager` operations. -/
def mkEmail (cfg : MailConfig) (uid : String) : String :=
  uid ++ "@" ++ cfg.domain

/-- Source `MailboxManager.create_mailbox`: computes the email address
and the quota for the role and returns the email (the backend call is a
TODO stub). Modelled as the pair (returned email, quota computed for the
backend). -/
def create_mailbox (cfg : MailConfig) (uid : String) (role : UserRole) : String × Nat :=
  (mkEmail cfg uid, get_quota cfg role)

/-- Source `MailboxManager.archive_mailbox`: computes the email and an
archive path, logs, and returns the path; the backup itself is a TODO
stub, so no observable state changes. -/
def archive_mailbox (cfg : MailConfig) (uid : String) : String :=
  "/archive/mail/" ++ uid

/-- Source `MailboxManager.delete_mailbox`: the body computes the email,
logs a warning and returns `None`; the retention check and the deletion
are TODO stubs. Modelled on the observable state (the directory
snapshot): it returns the state unchanged and raises no
rejection/error (`none` in the second component). -/
def delete_mailbox (cfg : MailConfig) (uid : String) (dir : List Identity) :
    List Identity × Option String :=
  (dir, none)

/-- Source `FreeIPAListener._detect_role`: substring checks on the OU
string in a fixed order, defaulting to `UCZEN`. -/
def detect_role (ou : String) : UserRole :=
  if containsSub "uczniowie" ou then .UCZEN
  else if containsSub "nauczyciele" ou then .NAUCZYCIEL
  else if containsSub "administracja" ou then .ADMINISTRACJA
  else if containsSub "dyrekcja" ou then .DYREKCJA
  else .UCZEN

/-- One iteration of the outer `for ou in self.config.watch_ous` loop of
`FreeIPAListener._process_new_users`: search the subtree of `ou` for
person entries with no `mail` attribute; for each hit create a mailbox
(role detected from the watched OU string) and write the returned email
back to the entry's `mail` attribute via `_update_mail_attribute`. -/
def process_new_users_step (cfg : MailConfig) (st : List MailAction × List Identity)
    (ou : String) : List MailAction × List Identity :=
  let dir := st.2
  let hits := dir.filter (fun u => u.ou == ou && u.mail.isNone)
  let acts := hits.map (fun u =>
    MailAction.Provision u.uid (create_mailbox cfg u.uid (detect_role ou)).1
      (create_mailbox cfg u.uid (detect_role ou)).2)
  (st.1 ++ acts,
   dir.map (fun u =>
     if u.ou == ou && u.mail.isNone
     then { u with mail := some (mkEmail cfg u.uid) } else u))

/-- Source `FreeIPAListener._process_new_users`: the outer loop over the
watched OUs, threading the directory snapshot (each LDAP `modify` is
visible to later searches) and accumulating dispatched actions. -/
def process_new_users (fcfg : FreeIPAConfig) (cfg : MailConfig)
    (dir : List Identity) : List MailAction × List Identity :=
  fcfg.watch_ous.foldl (process_new_users_step cfg) ([], dir)

/-- Source `FreeIPAListener._process_disabled_users`: one subtree search
for `(&(objectClass=person)(nsAccountLock=TRUE)(mail=*))`, then
`archive_mailbox` on every hit. The "already archived" marker check is
an unimplemented TODO and `archive_mailbox` mutates nothing, so the
directory snapshot is returned unchanged. -/
def process_disabled_users (dir : List Identity) : List MailAction × List Identity :=
  ((dir.filter (fun u => u.nsAccountLock && u.mail.isSome)).map
      (fun u => MailAction.Archive u.uid),
   dir)

/-- The body of one `while True` iteration of
`FreeIPAListener.watch_users`: the three query calls run in sequence
inside a single `try`; an exception in one aborts the remaining calls of
that iteration and is caught by the `except Exception` handler. The
result is (actions actually dispatched before any exception, the caught
error if any). -/
def run_cycle (q1 q2 q3 : Except String (List MailAction)) :
    List MailAction × Option String :=
  match q1 with
  | .error e => ([], some e)
  | .ok a1 =>
    match q2 with
    | .error e => (a1, some e)
    | .ok a2 =>
      match q3 with
      | .error e => (a1 ++ a2, some e)
      | .ok a3 => (a1 ++ a2 ++ a3, none)

/-- Source `FreeIPAListener.watch_users` as a trace: given the query
outcomes of each scheduled cycle, the loop runs every cycle (catch, log,
sleep 60 s, repeat) and yields one report per cycle. -/
def watch_users (cycles :
    List (Except String (List MailAction) × Except String (List MailAction) ×
          Except String (List MailAction))) :
    List (List MailAction × Option String) :=
  cycles.map (fun c => run_cycle c.1 c.2.1 c.2.2)

/-- Modelled from the spec: the `MailboxStage` enum of the
`MailboxLifecycle` state machine (spec §3, §4.3). The state machine is
absent from src/ — the skeleton only references archiving and retention
in TODO comments — so its stages are taken from the spec's words. -/
inductive MailboxStage where
  | Unprovisioned
  | Active
  | Disabled
  | Archived
  | PendingDeletion
  | Deleted
deriving DecidableEq, Repr, Fintype

/-- The stage ordinal in the order
`Unprovisioned < Active < Disabled < Archived < PendingDeletion < Deleted`. -/
def stageOrd : MailboxStage → Nat
  | .Unprovisioned => 0
  | .Active => 1
  | .Disabled => 2
  | .Archived => 3
  | .PendingDeletion => 4
  | .Deleted => 5

/-- Modelled from the spec: the action field of a
`ReconciliationDecision` (spec §3), absent from src/. -/
inductive LifecycleAction where
  | Provision
  | Archive
  | Delete
  | UpdateAlias
  | NoOp
deriving DecidableEq, Repr, Fintype

/-- Modelled from the spec: `MailboxLifecycle.apply(stage, action)`
(spec §4.3), absent from src/. The Boolean argument records whether
`now - last_transition_at >= retention_period`. Transitions follow the
spec's words: `Provision` only from `Unprovisioned` (§4.3), `Archive`
from `Active` lands on `Archived` because `Disabled` is transient and
"collapses immediately into Archived within the same decision" (§4.3),
`Delete` from `Archived` succeeds only once retention has elapsed and
"stage becomes Deleted" (§8); `UpdateAlias` and `NoOp` leave the stage
unchanged; everything else is rejected (`none`, an `InvalidTransition`). -/
def MailboxLifecycle.apply (s : MailboxStage) (a : LifecycleAction)
    (retentionElapsed : Bool) : Option MailboxStage :=
  match s, a, retentionElapsed with
  | .Unprovisioned, .Provision, _ => some .Active
  | .Active, .Archive, _ => some .Archived
  | .Archived, .Delete, true => some .Deleted
  | s, .UpdateAlias, _ => some s
  | s, .NoOp, _ => some s
  | _, _, _ => none

/-- A sequence of validated transitions applied to a record: a rejected
transition is skipped with no mutation (spec §7, `InvalidTransition`). -/
def applySeq (s : MailboxStage) (l : List (LifecycleAction × Bool)) : MailboxStage :=
  l.foldl (fun st ar => (MailboxLifecycle.apply st ar.1 ar.2).getD st) s

/-- The `uid=jkowalski, ou=uczniowie` identity of the spec's provisioning
scenario: no `mail` attribute yet. -/
def jkowalski : Identity :=
  { uid := "jkowalski", ou := "ou=uczniowie", nsAccountLock := false, mail := none }

/-- The `uid=anowak` identity of the spec's archiving scenario:
`nsAccountLock=TRUE` with the `mail` attribute set. -/
def anowak : Identity :=
  { uid := "anowak", ou := "ou=uczniowie", nsAccountLock := true,
    mail := some "anowak@zsel.opole.pl" }

/-- Helper for C6: one validated-or-skipped transition never lowers the
stage ordinal. -/
theorem stageOrd_le_applyStep :
    ∀ (s : MailboxStage) (a : LifecycleAction) (r : Bool),
      stageOrd s ≤ stageOrd ((MailboxLifecycle.apply s a r).getD s) := by
  decide

/-- C8: the email address returned by `create_mailbox` depends only on
the uid and the configured domain, never on the role; the role only
selects the quota via `_get_quota`. -/
theorem create_mailbox_email_role_independent :
    ∀ (cfg : MailConfig) (uid : String) (r1 r2 : UserRole),
      (create_mailbox cfg uid r1).1 = (create_mailbox cfg uid r2).1 ∧
      (create_mailbox cfg uid r1).2 = get_quota cfg r1 :=
  fun _ _ _ _ => ⟨rfl, rfl⟩

/-- C10: `delete_mailbox` is effect-free on provisioning state: for every
configuration, uid and directory snapshot it leaves the snapshot
unchanged and raises nothing (its body only logs; the retention check
and the deletion are unimplemented TODOs). -/
theorem delete_mailbox_frame :
    ∀ (cfg : MailConfig) (uid : String) (dir : List Identity),
      delete_mailbox cfg uid dir = (dir, none) :=
  fun _ _ _ => rfl

/-- C5 (code evaluated at the failing input): calling `delete_mailbox`
on `anowak` — whatever the stage and however little of the retention
period has elapsed — neither rejects with an error nor deletes
anything: the state comes back unchanged and no rejection is raised,
contradicting the required `InvalidTransition`-before-retention /
`Deleted`-after-retention behaviour. -/
theorem delete_mailbox_ignores_retention :
    delete_mailbox defaultMailConfig "anowak" [anowak] = ([anowak], none) :=
  rfl

/-- C1 (code evaluated at the failing input): with `anowak` locked and
mail set, one cycle of `_process_disabled_users` dispatches
`Archive "anowak"` and leaves the directory unchanged, and the next
cycle on that same state dispatches `Archive "anowak"` again instead of
a `NoOp` — the "already archived" marker check is an unimplemented TODO,
so archiving repeats every cycle. -/
theorem process_disabled_users_rearchives :
    (process_disabled_users [anowak]).1 = [MailAction.Archive "anowak"] ∧
    (process_disabled_users (process_disabled_users [anowak]).2).1 =
      [MailAction.Archive "anowak"] :=
  ⟨rfl, rfl⟩

/-- C2 counterexample: when the new-identities query raises while the
disabled-identities query would succeed with `Archive "anowak"`, the
cycle dispatches nothing for the disabled branch — the single
`try`/`except` of `watch_users` aborts the remaining queries of the
cycle, so the disabled identity is not processed in that cycle. -/
theorem run_cycle_not_failure_isolated :
    ¬ (MailAction.Archive "anowak" ∈
        (run_cycle (Except.error "new-users query failed")
          (Except.ok [MailAction.Archive "anowak"]) (Except.ok [])).1) := by
  decide

/-- C2 amended: a failing query is caught at cycle level (the cycle
returns with the error recorded and the loop goes on to the next
cycle), but it aborts the later queries of the same cycle, whose
actions are only dispatched in a later cycle. -/
theorem run_cycle_failure_caught_not_isolated :
    ∀ (e : String) (a2 a3 : List MailAction) (rest :
        List (Except String (List MailAction) × Except String (List MailAction) ×
              Except String (List MailAction))),
      run_cycle (Except.error e) (Except.ok a2) (Except.ok a3) = ([], some e) ∧
      watch_users ((Except.error e, Except.ok a2, Except.ok a3) :: rest) =
        ([], some e) :: watch_users rest :=
  fun _ _ _ _ => ⟨rfl, rfl⟩

/-- C7: the watch loop never terminates on a processing error: every
scheduled cycle yields exactly one report (none aborts the loop), and
after any cycle — whatever its outcome, error included — the loop
proceeds to the next one. -/
theorem watch_users_never_exits :
    ∀ (cycles : List (Except String (List MailAction) ×
          Except String (List MailAction) × Except String (List MailAction)))
      (c : Except String (List MailAction) × Except String (List MailAction) ×
          Except String (List MailAction))
      (rest : List (Except String (List MailAction) ×
          Except String (List MailAction) × Except String (List MailAction))),
      (watch_users cycles).length = cycles.length ∧
      watch_users (c :: rest) = run_cycle c.1 c.2.1 c.2.2 :: watch_users rest := by
  intro cycles c rest
  exact ⟨List.length_map _ _, rfl⟩

/-- C4: `_detect_role` is a total pure function of the OU string, and on
any string recognized as none of the four known units it returns the
Student role. -/
theorem detect_role_unrecognized_default :
    ∀ ou : String,
      containsSub "uczniowie" ou = false →
      containsSub "nauczyciele" ou = false →
      containsSub "administracja" ou = false →
      containsSub "dyrekcja" ou = false →
      detect_role ou = UserRole.UCZEN := by
  intro ou h1 h2 h3 h4
  simp [detect_role, h1, h2, h3, h4]

/-- Witness for C4 at the concrete unrecognized unit `ou=goscie`. -/
theorem detect_role_unrecognized_default_witness :
    containsSub "uczniowie" "ou=goscie" = false ∧
    containsSub "nauczyciele" "ou=goscie" = false ∧
    containsSub "administracja" "ou=goscie" = false ∧
    containsSub "dyrekcja" "ou=goscie" = false ∧
    detect_role "ou=goscie" = UserRole.UCZEN :=
  ⟨by decide, by decide, by decide, by decide,
   detect_role_unrecognized_default "ou=goscie" (by decide) (by decide)
     (by decide) (by decide)⟩

/-- C9: role detection is substring containment in priority order: any
OU string containing `uczniowie` resolves to the Student role, whatever
else the string contains — exact equality with a known OU is not
required. -/
theorem detect_role_substring_student :
    ∀ ou : String, containsSub "uczniowie" ou = true →
      detect_role ou = UserRole.UCZEN := by
  intro ou h
  simp [detect_role, h]

/-- Witness for C9 on a string containing both `nauczyciele` and
`uczniowie`: the first branch wins and the result is Student. -/
theorem detect_role_substring_student_witness :
    containsSub "uczniowie" "ou=nauczyciele,ou=uczniowie" = true ∧
    containsSub "nauczyciele" "ou=nauczyciele,ou=uczniowie" = true ∧
    detect_role "ou=nauczyciele,ou=uczniowie" = UserRole.UCZEN :=
  ⟨by decide, by decide, detect_role_substring_student _ (by decide)⟩

/-- C6 counterexample: the legal retention transition
`apply(Archived, Delete) = Deleted` (spec §8) jumps the stage ordinal by
two, skipping `PendingDeletion`, and it is not the allowed
Active/Disabled collapse — so "no transition skips a required
intermediate stage except the Active-to-Disabled collapse" fails. -/
theorem apply_delete_skips_pending_deletion :
    MailboxLifecycle.apply MailboxStage.Archived LifecycleAction.Delete true =
      some MailboxStage.Deleted ∧
    stageOrd MailboxStage.Archived + 1 < stageOrd MailboxStage.Deleted ∧
    MailboxStage.Archived ≠ MailboxStage.Active := by
  decide

/-- C6 amended: over every sequence of validated transitions the stage
ordinal never decreases, and every single legal transition either moves
to an adjacent stage or is one of the two sanctioned jumps: the
Active-to-Archived step (the transient `Disabled` collapse) and the
retention `Delete` from `Archived` to `Deleted` (which bypasses
`PendingDeletion`, as spec §8 itself prescribes). -/
theorem lifecycle_stage_monotone :
    (∀ (s : MailboxStage) (l : List (LifecycleAction × Bool)),
        stageOrd s ≤ stageOrd (applySeq s l)) ∧
    (∀ (s : MailboxStage) (a : LifecycleAction) (r : Bool) (s' : MailboxStage),
        MailboxLifecycle.apply s a r = some s' →
        stageOrd s' ≤ stageOrd s + 1 ∨
        (s = MailboxStage.Active ∧ s' = MailboxStage.Archived) ∨
        (s = MailboxStage.Archived ∧ s' = MailboxStage.Deleted)) := by
  constructor
  · intro s l
    induction l generalizing s with
    | nil => exact Nat.le_refl _
    | cons hd tl ih =>
      exact Nat.le_trans (stageOrd_le_applyStep s hd.1 hd.2) (ih _)
  · decide

/-- Witness for C6 at the concrete transition
`apply(Unprovisioned, Provision) = Active`. -/
theorem lifecycle_stage_monotone_witness :
    stageOrd MailboxStage.Active ≤ stageOrd MailboxStage.Unprovisioned + 1 ∨
    (MailboxStage.Unprovisioned = MailboxStage.Active ∧
      MailboxStage.Active = MailboxStage.Archived) ∨
    (MailboxStage.Unprovisioned = MailboxStage.Archived ∧
      MailboxStage.Active = MailboxStage.Deleted) :=
  lifecycle_stage_monotone.2 MailboxStage.Unprovisioned LifecycleAction.Provision
    true MailboxStage.Active rfl

/-- Helper for C3: the OU fold only ever appends to the dispatched
action list. -/
theorem process_new_users_acts_mono (cfg : MailConfig) :
    ∀ (ous : List String) (st : List MailAction × List Identity) (a : MailAction),
      a ∈ st.1 → a ∈ (ous.foldl (process_new_users_step cfg) st).1 := by
  intro ous
  induction ous with
  | nil => intro st a h; exact h
  | cons o t ih =>
    intro st a h
    exact ih _ a (List.mem_append_left _ h)

/-- Helper for C3: an entry whose `mail` attribute is already set is
left untouched by every OU pass, hence survives the fold. -/
theorem process_new_users_dir_pres (cfg : MailConfig) :
    ∀ (ous : List String) (st : List MailAction × List Identity) (v : Identity),
      v ∈ st.2 → v.mail.isSome = true →
      v ∈ (ous.foldl (process_new_users_step cfg) st).2 := by
  intro ous
  induction ous with
  | nil => intro st v h _; exact h
  | cons o t ih =>
    intro st v h hsome
    refine ih _ v ?_ hsome
    have hcond : (v.ou == o && v.mail.isNone) = false := by
      cases hm : v.mail with
      | none => rw [hm] at hsome; cases hsome
      | some x => simp [hm]
    show v ∈ st.2.map (fun w => if w.ou == o && w.mail.isNone
      then { w with mail := some (mkEmail cfg w.uid) } else w)
    exact List.mem_map.mpr ⟨v, h, by simp [hcond]⟩

/-- Helper for C3: inner induction over the watched-OU list, with an
arbitrary accumulated state. -/
theorem process_new_users_core (cfg : MailConfig) :
    ∀ (ous : List String) (st : List MailAction × List Identity) (u : Identity),
      u ∈ st.2 → u.mail = none → u.ou ∈ ous →
      MailAction.Provision u.uid (mkEmail cfg u.uid)
          (get_quota cfg (detect_role u.ou)) ∈
        (ous.foldl (process_new_users_step cfg) st).1 ∧
      { u with mail := some (mkEmail cfg u.uid) } ∈
        (ous.foldl (process_new_users_step cfg) st).2 := by
  intro ous
  induction ous with
  | nil => intro st u hmem hmail hou; exact absurd hou (List.not_mem_nil _)
  | cons o t ih =>
    intro st u hmem hmail hou
    by_cases ho : u.ou = o
    · have hcond : (u.ou == o && u.mail.isNone) = true := by
        simp [ho, hmail]
      have hfil : u ∈ st.2.filter (fun w => w.ou == o && w.mail.isNone) :=
        List.mem_filter.mpr ⟨hmem, hcond⟩
      have hact : MailAction.Provision u.uid (mkEmail cfg u.uid)
          (get_quota cfg (detect_role u.ou)) ∈ (process_new_users_step cfg st o).1 := by
        show MailAction.Provision u.uid (mkEmail cfg u.uid)
            (get_quota cfg (detect_role u.ou)) ∈
          st.1 ++ (st.2.filter (fun w => w.ou == o && w.mail.isNone)).map
            (fun w => MailAction.Provision w.uid
              (create_mailbox cfg w.uid (detect_role o)).1
              (create_mailbox cfg w.uid (detect_role o)).2)
        refine List.mem_append.mpr (Or.inr ?_)
        refine List.mem_map.mpr ⟨u, hfil, ?_⟩
        rw [ho]
        rfl
      have hdir : ({ u with mail := some (mkEmail cfg u.uid) }) ∈
          (process_new_users_step cfg st o).2 := by
        show _ ∈ st.2.map (fun w => if w.ou == o && w.mail.isNone
          then { w with mail := some (mkEmail cfg w.uid) } else w)
        exact List.mem_map.mpr ⟨u, hmem, by simp [hcond]⟩
      exact ⟨process_new_users_acts_mono cfg t _ _ hact,
             process_new_users_dir_pres cfg t _ _ hdir rfl⟩
    · have hou' : u.ou ∈ t := by
        cases List.mem_cons.mp hou with
        | inl h => exact absurd h ho
        | inr h => exact h
      have hbeq : (u.ou == o) = false := by
        simp [ho]
      have hcond : (u.ou == o && u.mail.isNone) = false := by
        simp [hbeq]
      have hmem' : u ∈ (process_new_users_step cfg st o).2 := by
        show u ∈ st.2.map (fun w => if w.ou == o && w.mail.isNone
          then { w with mail := some (mkEmail cfg w.uid) } else w)
        exact List.mem_map.mpr ⟨u, hmem, by simp [hcond]⟩
      exact ih _ u hmem' hmail hou'

/-- C3: every identity observed without a `mail` attribute under a
watched OU gets, within one cycle of `_process_new_users`, a `Provision`
dispatch with email `{uid}@{domain}` and the quota configured for the
role detected from its OU, and the directory snapshot after the cycle
holds that exact address in the entry's `mail` attribute. -/
theorem process_new_users_provisions :
    ∀ (fcfg : FreeIPAConfig) (cfg : MailConfig) (dir : List Identity) (u : Identity),
      u ∈ dir → u.mail = none → u.ou ∈ fcfg.watch_ous →
      MailAction.Provision u.uid (mkEmail cfg u.uid)
          (get_quota cfg (detect_role u.ou)) ∈ (process_new_users fcfg cfg dir).1 ∧
      { u with mail := some (mkEmail cfg u.uid) } ∈ (process_new_users fcfg cfg dir).2 :=
  fun fcfg cfg dir u hmem hmail hou =>
    process_new_users_core cfg fcfg.watch_ous ([], dir) u hmem hmail hou

/-- Witness for C3 at the spec's scenario: `uid=jkowalski, ou=uczniowie`
with no mail attribute, under the default configuration, yields
`Provision("jkowalski@zsel.opole.pl", quota = 1 GiB)` and the address is
written back to the directory. -/
theorem process_new_users_provisions_witness :
    jkowalski ∈ [jkowalski] ∧ jkowalski.mail = none ∧
    jkowalski.ou ∈ defaultFreeIPAConfig.watch_ous ∧
    MailAction.Provision "jkowalski" "jkowalski@zsel.opole.pl" 1073741824 ∈
      (process_new_users defaultFreeIPAConfig defaultMailConfig [jkowalski]).1 ∧
    ({ uid := "jkowalski", ou := "ou=uczniowie", nsAccountLock := false,
       mail := some "jkowalski@zsel.opole.pl" } : Identity) ∈
      (process_new_users defaultFreeIPAConfig defaultMailConfig [jkowalski]).2 := by
  have h := process_new_users_provisions defaultFreeIPAConfig defaultMailConfig
    [jkowalski] jkowalski (by decide) rfl (by decide)
  exact ⟨by decide, rfl, by decide, h.1, h.2⟩
